import Mathlib

/-!
Verification of the ce-router request-routing front door.

The TypeScript sources are shallowly embedded: JavaScript objects become
association lists of `String × JVal`, JavaScript's truthiness and `||`
operator are modelled explicitly, external effects (DynamoDB, S3, SQS, the
websocket) become explicit parameters or returned descriptions of the
performed actions, and `Date.now()` / `toISOString()` values are passed in.
-/

set_option maxRecDepth 10000

namespace CeRouter

/-- JavaScript values as they occur in the router: JSON data plus
`undefined`.  `undef` is needed because the code distinguishes a missing
property (which reads as `undefined`) from `null`. -/
inductive JVal where
  | undef
  | null
  | bool (b : Bool)
  | num (n : Int)
  | str (s : String)
  | arr (elems : List JVal)
  | obj (fields : List (String × JVal))

/-- JavaScript truthiness.  `0`, `""`, `null`, `undefined`, `false` are
falsy; arrays and objects (even empty ones) are truthy. -/
def JVal.truthy : JVal → Bool
  | .undef => false
  | .null => false
  | .bool b => b
  | .num n => n != 0
  | .str s => s != ""
  | .arr _ => true
  | .obj _ => true

/-- JavaScript `a || b`. -/
def jsOr (a b : JVal) : JVal :=
  if a.truthy then a else b

/-- Property read on an association list (first binding wins; the lists we
build have unique keys, mirroring JavaScript objects). -/
def lookupKey {α : Type} : List (String × α) → String → Option α
  | [], _ => none
  | (k, v) :: rest, key => if k == key then some v else lookupKey rest key

/-- JavaScript property assignment `o[key] = v`: replaces the value in
place if the key exists, otherwise appends the new binding (JS objects
keep insertion order). -/
def setKey {α : Type} : List (String × α) → String → α → List (String × α)
  | [], key, v => [(key, v)]
  | (k, w) :: rest, key, v =>
    if k == key then (k, v) :: rest else (k, w) :: setKey rest key v

/-- JavaScript `delete o[key]`. -/
def deleteKey {α : Type} (m : List (String × α)) (key : String) : List (String × α) :=
  m.filter (fun p => p.1 != key)

/-- JavaScript object spread `\x7b...base, ...fs\x7d`: assign every binding
of `fs`, in order, on top of `base`. -/
def spreadMerge (base fs : List (String × JVal)) : List (String × JVal) :=
  fs.foldl (fun acc p => setKey acc p.1 p.2) base

/-- Own enumerable properties contributed by `...v` in an object literal:
objects give their fields, arrays and strings give index-keyed entries,
primitives give nothing. -/
def spreadFields : JVal → List (String × JVal)
  | .obj fs => fs
  | .arr xs => xs.enum.map (fun p => (toString p.1, p.2))
  | .str s => s.data.enum.map (fun p => (toString p.1, JVal.str (String.singleton p.2)))
  | _ => []

/-- Helper for JavaScript `String.prototype.includes` on char lists. -/
def containsList (sub : List Char) : List Char → Bool
  | [] => sub.isEmpty
  | c :: rest => sub.isPrefixOf (c :: rest) || containsList sub rest

/-- JavaScript `s.includes(sub)`. -/
def jsIncludes (s sub : String) : Bool :=
  containsList sub.data s.data

/-- JavaScript `s.toLowerCase()` (ASCII case folding, which covers every
string the router compares). -/
def jsToLower (s : String) : String :=
  String.mk (s.data.map Char.toLower)

/-- The test `contentType?.toLowerCase().includes('application/json')`
from `parseRequestBody` (src/utils/index.ts). -/
def contentTypeIsJson : Option String → Bool
  | some ct => jsIncludes (jsToLower ct) "application/json"
  | none => false

/-- Embedding of `parseRequestBody` (src/utils/index.ts, lines 34-49).
`jsonParse` stands for the external `JSON.parse` primitive; `none` models
a parse exception.  The source catches that exception, so the embedding is
a total function. -/
def parseRequestBody (jsonParse : String → Option JVal) (body : String)
    (contentType : Option String) : JVal :=
  if body == "" then JVal.obj []
  else if contentTypeIsJson contentType then
    match jsonParse body with
    | some v => v
    | none => JVal.obj [("source", JVal.str body)]
  else
    JVal.obj [("source", JVal.str body)]

/-- Hexadecimal digit used by the `\u00XX` escapes of `JSON.stringify`. -/
def hexDigit (n : Nat) : Char :=
  if n < 10 then Char.ofNat (48 + n) else Char.ofNat (87 + n)

/-- Escaping of one character inside a JSON string literal, exactly as
`JSON.stringify` does it. -/
def escapeChar (c : Char) : String :=
  if c == Char.ofNat 34 then "\\\""
  else if c == Char.ofNat 92 then "\\\\"
  else if c == Char.ofNat 8 then "\\b"
  else if c == Char.ofNat 9 then "\\t"
  else if c == Char.ofNat 10 then "\\n"
  else if c == Char.ofNat 12 then "\\f"
  else if c == Char.ofNat 13 then "\\r"
  else if c.toNat < 32 then
    "\\u00" ++ String.singleton (hexDigit (c.toNat / 16)) ++ String.singleton (hexDigit (c.toNat % 16))
  else String.singleton c

/-- Escaping of a whole JSON string body. -/
def escapeString (s : String) : String :=
  s.data.foldl (fun acc c => acc ++ escapeChar c) ""

mutual

/-- Embedding of `JSON.stringify` for the values the router serialises.
`undef` never reaches a top-level call in the embedded code paths; inside
arrays `JSON.stringify` renders `undefined` as `null`, and object fields
holding `undefined` are dropped (see `stringifyObjFields`). -/
def JVal.stringify : JVal → String
  | .undef => "null"
  | .null => "null"
  | .bool b => if b then "true" else "false"
  | .num n => toString n
  | .str s => "\"" ++ escapeString s ++ "\""
  | .arr xs => "[" ++ stringifyArrElems xs ++ "]"
  | .obj fs => "\x7b" ++ stringifyObjFields fs ++ "\x7d"

/-- Array elements of `JSON.stringify`, comma separated. -/
def stringifyArrElems : List JVal → String
  | [] => ""
  | [x] => JVal.stringify x
  | x :: y :: rest => JVal.stringify x ++ "," ++ stringifyArrElems (y :: rest)

/-- Object fields of `JSON.stringify`: `undefined`-valued fields are
dropped, the others are comma separated in insertion order. -/
def stringifyObjFields : List (String × JVal) → String
  | [] => ""
  | (k, v) :: rest =>
    match v with
    | .undef => stringifyObjFields rest
    | v =>
      let s := "\"" ++ escapeString k ++ "\":" ++ JVal.stringify v
      let r := stringifyObjFields rest
      if r == "" then s else s ++ "," ++ r

end

/-! Queue submitter: `sendToSqs` (src/services/routing.ts, lines 252-358). -/

/-- The Lambda-specific fields the queue message starts from
(src/services/routing.ts, lines 274-281). -/
def sqsBaseFields (guid compilerId : String) (isCmake : Bool)
    (headers queryStringParameters : JVal) : List (String × JVal) :=
  [("guid", JVal.str guid), ("compilerId", JVal.str compilerId),
   ("isCMake", JVal.bool isCmake), ("headers", headers),
   ("queryStringParameters", queryStringParameters)]

/-- The eight consumer-required fields and their defaults
(src/services/routing.ts, lines 284-291). -/
def requiredDefaults : List (String × JVal) :=
  [("source", JVal.str ""), ("options", JVal.arr []), ("filters", JVal.obj []),
   ("backendOptions", JVal.obj []), ("tools", JVal.arr []), ("libraries", JVal.arr []),
   ("files", JVal.arr []), ("executeParameters", JVal.obj [])]

/-- One defaulting assignment `m.k = m.k || d`. -/
def applyDefault (m : List (String × JVal)) (k : String) (d : JVal) : List (String × JVal) :=
  setKey m k (jsOr ((lookupKey m k).getD JVal.undef) d)

/-- The run of defaulting assignments over a list of (field, default) pairs. -/
def applyDefaults (ds : List (String × JVal)) (m : List (String × JVal)) :
    List (String × JVal) :=
  ds.foldl (fun acc p => applyDefault acc p.1 p.2) m

/-- Queue message construction of `sendToSqs`: Lambda fields first, the
parsed request body spread on top, then the defaulting assignments. -/
def buildMessageBody (guid compilerId : String) (isCmake : Bool)
    (headers queryStringParameters : JVal) (requestData : JVal) : List (String × JVal) :=
  applyDefaults requiredDefaults
    (spreadMerge (sqsBaseFields guid compilerId isCmake headers queryStringParameters)
      (spreadFields requestData))

/-- The content-type extraction
`(headers['content-type'] || headers['Content-Type'] || '') as string`
(src/services/routing.ts, line 266).  A non-string truthy header value
would make the original code throw inside `parseRequestBody`; the router
only ever passes string-valued content types, which is the case modelled. -/
def sqsContentType (headers : List (String × JVal)) : String :=
  match jsOr ((lookupKey headers "content-type").getD JVal.undef)
      (jsOr ((lookupKey headers "Content-Type").getD JVal.undef) (JVal.str "")) with
  | .str s => s
  | _ => ""

/-- The serialised queue message `JSON.stringify(messageBody)` of
`sendToSqs` before any overflow handling. -/
def sqsMessageJson (jsonParse : String → Option JVal) (guid compilerId body : String)
    (isCmake : Bool) (headers queryStringParameters : List (String × JVal)) : String :=
  JVal.stringify (JVal.obj (buildMessageBody guid compilerId isCmake
    (JVal.obj headers) (JVal.obj queryStringParameters)
    (parseRequestBody jsonParse body (some (sqsContentType headers)))))

/-- Overflow configuration `getOverflowConfig()` (src/services/routing.ts,
lines 41-47): `SQS_MAX_MESSAGE_SIZE` (default 262144), `S3_OVERFLOW_BUCKET`
(default `temp-storage.godbolt.org`) and `S3_OVERFLOW_KEY_PREFIX` (default
`sqs-overflow/`), all resolved from the environment. -/
structure OverflowCfg where
  maxMessageSize : Nat
  bucket : String
  keyPref : String

/-- The `timestamp.replace(/[:.]/g, '-')` sanitisation of the ISO
timestamp used in the overflow S3 key (src/services/routing.ts, line 309). -/
def sanitizeTimestamp (s : String) : String :=
  String.mk (s.data.map
    (fun c => if c == Char.ofNat 58 || c == Char.ofNat 46 then Char.ofNat 45 else c))

/-- The overflow S3 key
`$\x7boverflowConfig.keyPrefix\x7d$\x7benvironmentName\x7d/$\x7btimestamp\x7d/$\x7bguid\x7d.json`. -/
def overflowKey (cfg : OverflowCfg) (envName nowIsoKey guid : String) : String :=
  cfg.keyPref ++ envName ++ "/" ++ sanitizeTimestamp nowIsoKey ++ "/" ++ guid ++ ".json"

/-- The overflow reference message enqueued instead of an oversized body
(src/services/routing.ts, lines 331-339). -/
def overflowEnvelope (cfg : OverflowCfg) (envName nowIsoKey nowIsoEnvelope guid compilerId : String)
    (messageSize : Nat) : JVal :=
  JVal.obj [("type", JVal.str "s3-overflow"), ("guid", JVal.str guid),
    ("compilerId", JVal.str compilerId), ("s3Bucket", JVal.str cfg.bucket),
    ("s3Key", JVal.str (overflowKey cfg envName nowIsoKey guid)),
    ("originalSize", JVal.num (Int.ofNat messageSize)),
    ("timestamp", JVal.str nowIsoEnvelope)]

/-- Description of the externally visible outcome of one `sendToSqs` call:
the S3 upload performed for overflow (bucket, key, body, recorded
original size), and the SQS `SendMessageCommand` parameters. -/
structure SqsSend where
  s3Upload : Option (String × String × String × Nat)
  messageBody : String
  messageGroupId : String
  messageDeduplicationId : String

/-- Embedding of `sendToSqs` (src/services/routing.ts, lines 252-358).
`jsonParse` stands for `JSON.parse`; `nowIsoKey` and `nowIsoEnvelope` are
the two `new Date().toISOString()` reads; the error case is the initial
`No queue URL available` throw.  SQS/S3 transport failures re-thrown by
the final catch do not change the attempted actions described here. -/
def sendToSqs (cfg : OverflowCfg) (envName : String) (jsonParse : String → Option JVal)
    (nowIsoKey nowIsoEnvelope : String) (guid compilerId body : String) (isCmake : Bool)
    (headers queryStringParameters : List (String × JVal)) (queueUrl : String) :
    Except String SqsSend :=
  if queueUrl == "" then .error "No queue URL available"
  else
    let messageJson := sqsMessageJson jsonParse guid compilerId body isCmake headers
      queryStringParameters
    let messageSize := messageJson.utf8ByteSize
    if messageSize > cfg.maxMessageSize then
      .ok ⟨some (cfg.bucket, overflowKey cfg envName nowIsoKey guid, messageJson, messageSize),
        JVal.stringify (overflowEnvelope cfg envName nowIsoKey nowIsoEnvelope guid compilerId
          messageSize),
        "default", guid⟩
    else
      .ok ⟨none, messageJson, "default", guid⟩

/-! Event-bus client: pending-subscription replay
(src/unnamed/part_006 = websocket-manager.ts, lines 179-207). -/

/-- The expiry test `now - timestamp > oneMinute` of
`resubscribePendingSubscriptions`.  Timestamps are epoch milliseconds; for
`timestamp` in the future JavaScript yields a negative difference and Nat
subtraction yields 0, and both fail the `> 60000` test, so the embedding
agrees with the source on all inputs. -/
def pendingExpired (now ts : Nat) : Bool :=
  decide (60000 < now - ts)

/-- Embedding of `WebSocketManager.resubscribePendingSubscriptions`: the
retained pending map (expired entries deleted, timestamps untouched) and
the list of `subscribe: $\x7bguid\x7d` frames sent, in iteration order. -/
def resubscribePendingSubscriptions (now : Nat) (pending : List (String × Nat)) :
    List (String × Nat) × List String :=
  let remaining := pending.filter (fun p => !pendingExpired now p.2)
  (remaining, remaining.map (fun p => "subscribe: " ++ p.1))

/-! Result correlator (src/services/result-waiter.ts). -/

mutual

/-- JavaScript `String(v)` / template-literal conversion. -/
def jsToString : JVal → String
  | .undef => "undefined"
  | .null => "null"
  | .bool b => if b then "true" else "false"
  | .num n => toString n
  | .str s => s
  | .arr xs => jsArrJoin xs
  | .obj _ => "[object Object]"

/-- JavaScript `Array.prototype.join(',')` as used by `String(array)`:
`null` and `undefined` elements render as the empty string. -/
def jsArrJoin : List JVal → String
  | [] => ""
  | [x] =>
    match x with
    | .undef => ""
    | .null => ""
    | x => jsToString x
  | x :: y :: rest =>
    (match x with
     | .undef => ""
     | .null => ""
     | x => jsToString x) ++ "," ++ jsArrJoin (y :: rest)

end

/-- The `hasTypicalResultData` test of `ResultWaiter.resolveS3FileIfNeeded`
(src/services/result-waiter.ts, lines 160-166): JavaScript truthiness of
`asm`, `stdout`, `stderr`, `output`, `result`, and `code !== undefined`. -/
def hasTypicalResultData (fs : List (String × JVal)) : Bool :=
  ((lookupKey fs "asm").getD JVal.undef).truthy
  || ((lookupKey fs "stdout").getD JVal.undef).truthy
  || ((lookupKey fs "stderr").getD JVal.undef).truthy
  || (match lookupKey fs "code" with
      | some JVal.undef => false
      | some _ => true
      | none => false)
  || ((lookupKey fs "output").getD JVal.undef).truthy
  || ((lookupKey fs "result").getD JVal.undef).truthy

/-- The synthetic error result returned when the S3 fetch of a lightweight
result fails (src/services/result-waiter.ts, lines 186-194). -/
def s3ErrorResult (fs : List (String × JVal)) : JVal :=
  JVal.obj [("code", JVal.num (-1)), ("okToCache", JVal.bool false),
    ("stdout", JVal.arr []),
    ("stderr", JVal.arr [JVal.obj [("text",
      JVal.str "An internal error has occurred while retrieving the compilation result")]]),
    ("execTime", JVal.num 0), ("timedOut", JVal.bool false),
    ("guid", (lookupKey fs "guid").getD JVal.undef)]

/-- Embedding of `ResultWaiter.resolveS3FileIfNeeded` together with the
inlined `fetchResultFromS3` (src/services/result-waiter.ts, lines 74-96 and
148-196).  `fetchJson` stands for the S3 `GetObjectCommand` followed by
`JSON.parse` (`none` = any fetch/parse failure), `resultsPref` for the
configured `COMPILATION_RESULTS_PREFIX` (default `cache/`).  The second
component records the S3 key fetched, `none` when no fetch happened. -/
def resolveS3FileIfNeeded (fetchJson : String → Option JVal) (resultsPref : String)
    (message : JVal) : JVal × Option String :=
  match message with
  | .obj fs =>
    let s3KeyVal := (lookupKey fs "s3Key").getD JVal.undef
    if !s3KeyVal.truthy then (message, none)
    else if hasTypicalResultData fs then (message, none)
    else
      let fullKey := resultsPref ++ jsToString s3KeyVal
      match fetchJson fullKey with
      | some content => (JVal.obj (spreadMerge (spreadFields content) fs), some fullKey)
      | none => (s3ErrorResult fs, some fullKey)
  | _ => (message, none)

/-- Event-bus client bookkeeping relevant to the correlator: connection
state, the `subscriptions` set and the `pendingSubscriptions` map of
`WebSocketManager` (src/unnamed/part_006). -/
structure WsState where
  isOpen : Bool
  subs : List String
  pending : List (String × Nat)

/-- Embedding of `WebSocketManager.unsubscribe` (src/unnamed/part_006,
lines 129-133): the topic is removed from both bookkeeping structures and
an `unsubscribe: $\x7btopic\x7d` frame is sent; `send` rejects when the
socket is not open, in which case no frame goes out. -/
def WebSocketManager.unsubscribe (ws : WsState) (topic : String) : WsState × List String :=
  (⟨ws.isOpen, ws.subs.filter (fun t => t != topic), deleteKey ws.pending topic⟩,
   if ws.isOpen then ["unsubscribe: " ++ topic] else [])

/-- The correlator's waiter mapping (src/services/result-waiter.ts, lines
8-15).  The `Nat` value stands for the waiter record (resolve/reject
callbacks and timeout handle); distinct numbers model distinct records. -/
structure RWState where
  subscriptions : List (String × Nat)

/-- Embedding of `ResultWaiter.unsubscribe` (src/services/result-waiter.ts,
lines 135-142): it forwards to the event-bus `unsubscribe` (swallowing its
errors) and returns.  Components: waiter mapping after the call, event-bus
state after the call, frames sent. -/
def ResultWaiter.unsubscribe (st : RWState) (ws : WsState) (guid : String) :
    RWState × WsState × List String :=
  let r := WebSocketManager.unsubscribe ws guid
  (st, r.1, r.2)

/-- Registration effect of `ResultWaiter.waitForResult`
(src/services/result-waiter.ts, lines 108-133): a fresh waiter record
(modelled by `waiter`) is stored under `guid` with `Map.prototype.set`
semantics.  The function itself never throws. -/
def ResultWaiter.waitForResult (st : RWState) (guid : String) (waiter : Nat) : RWState :=
  ⟨setKey st.subscriptions guid waiter⟩

/-! HTTP forwarder (src/services/http-forwarder.ts, third revision in the
concatenated source, the one matching the claimed line numbers). -/

/-- A request header value as Express delivers it: a string or an array of
strings. -/
inductive HVal where
  | s (v : String)
  | list (vs : List String)

/-- The array-flattening step of `prepareForwardHeaders`: arrays are joined
with `", "`. -/
def flattenHeaderValue : HVal → String
  | .s v => v
  | .list vs => String.intercalate ", " vs

/-- Embedding of `prepareForwardHeaders` (src/services/http-forwarder.ts,
lines 204-224): flatten every header value, then delete the seven
hop-by-hop headers. -/
def prepareForwardHeaders (headers : List (String × HVal)) : List (String × String) :=
  let flat := headers.foldl (fun acc p => setKey acc p.1 (flattenHeaderValue p.2)) []
  deleteKey (deleteKey (deleteKey (deleteKey (deleteKey (deleteKey (deleteKey
    flat "connection") "upgrade") "proxy-authenticate") "proxy-authorization")
    "te") "trailers") "transfer-encoding"

/-- Embedding of the response-header cleanup in `forwardToEnvironmentUrl`
(src/services/http-forwarder.ts, lines 262-272): a copy of the backend's
response headers with only `transfer-encoding`, `connection` and `upgrade`
deleted. -/
def cleanResponseHeaders (responseHeaders : List (String × String)) : List (String × String) :=
  deleteKey (deleteKey (deleteKey responseHeaders "transfer-encoding") "connection") "upgrade"

/-! Response shaping: `createSuccessResponse` (src/utils/index.ts,
lines 104-161). -/

/-- CSI parameter byte class of the ANSI-stripping regex: digits, colon,
semicolon, and the characters from `<` to `?` (code points 48 to 63). -/
def csiParamByte (c : Char) : Bool :=
  48 ≤ c.toNat && c.toNat ≤ 63

/-- CSI intermediate byte class: code points 32 (space) to 47 (slash). -/
def csiIntermediateByte (c : Char) : Bool :=
  32 ≤ c.toNat && c.toNat ≤ 47

/-- CSI final byte class: code points 64 (`@`) to 126 (`~`). -/
def csiFinalByte (c : Char) : Bool :=
  64 ≤ c.toNat && c.toNat ≤ 126

/-- After a CSI introducer, the number of further characters consumed by
the regex (parameter bytes, then intermediate bytes, then one final byte),
or `none` when it does not match.  The three character classes are
pairwise disjoint, so greedy matching is exact. -/
def stripAnsiFrom (cs : List Char) : Option Nat :=
  match (cs.dropWhile csiParamByte).dropWhile csiIntermediateByte with
  | d :: tl => if csiFinalByte d then some (cs.length - tl.length) else none
  | [] => none

/-- Global replacement of every ANSI CSI escape sequence (introducer
`\x9B`, or `\x1B` followed by `[`, then the classes of `stripAnsiFrom`) by
the empty string: the `filterAnsi` branch of `textify`
(src/utils/index.ts, line 55). -/
def stripAnsiAux : List Char → List Char
  | [] => []
  | c :: rest =>
    if c == Char.ofNat 155 then
      match stripAnsiFrom rest with
      | some n => stripAnsiAux (rest.drop n)
      | none => c :: stripAnsiAux rest
    else if c == Char.ofNat 27 then
      match rest with
      | d :: rest2 =>
        if d == Char.ofNat 91 then
          match stripAnsiFrom rest2 with
          | some n => stripAnsiAux (rest2.drop n)
          | none => c :: stripAnsiAux (d :: rest2)
        else c :: stripAnsiAux (d :: rest2)
      | [] => [c]
    else c :: stripAnsiAux rest
termination_by cs => cs.length
decreasing_by
  all_goals simp_wf
  all_goals omega

/-- ANSI CSI stripping on strings. -/
def stripAnsi (s : String) : String :=
  String.mk (stripAnsiAux s.data)

/-- Element conversion of `Array.prototype.join`: `null` and `undefined`
become the empty string. -/
def joinElemStr : JVal → String
  | .undef => ""
  | .null => ""
  | v => jsToString v

/-- Embedding of `textify` (src/utils/index.ts, lines 51-58): map `.text`
over the lines, join with newlines, optionally strip ANSI sequences.  A
truthy non-array argument would make the source throw into the enclosing
catch; the router only passes arrays or missing fields, which is what is
modelled (non-arrays behave as `[]`). -/
def textify (v : JVal) (filterAnsi : Bool) : String :=
  let xs := match v with
    | .arr xs => xs
    | _ => []
  let text := String.intercalate "\n" (xs.map (fun line =>
    joinElemStr (match line with
      | .obj fs => (lookupKey fs "text").getD JVal.undef
      | _ => JVal.undef)))
  if filterAnsi then stripAnsi text else text

/-- Whitespace class of JavaScript `String.prototype.trim`. -/
def jsWsChar (c : Char) : Bool :=
  c == Char.ofNat 32 || c == Char.ofNat 9 || c == Char.ofNat 10
  || c == Char.ofNat 13 || c == Char.ofNat 12 || c == Char.ofNat 11

/-- JavaScript `s.trim()`. -/
def jsTrim (s : String) : String :=
  String.mk (((s.data.dropWhile jsWsChar).reverse.dropWhile jsWsChar).reverse)

/-- Embedding of `isEmpty` (src/utils/index.ts, lines 60-68). -/
def isEmptyJs : JVal → Bool
  | .undef => true
  | .null => true
  | .str s => jsTrim s == ""
  | .arr xs => xs.isEmpty
  | .obj fs => fs.isEmpty
  | .num _ => false
  | .bool _ => false

/-- The banner text constant `TEXT_BANNER` (src/utils/index.ts, line 5). -/
def textBanner : String :=
  "Compilation provided by Compiler Explorer at https://godbolt.org/"

/-- An HTTP response as produced by the utility layer (`ApiResponse`). -/
structure ApiResponse where
  statusCode : Nat
  headers : List (String × String)
  body : String

/-- The three CORS headers attached to every shaped response. -/
def corsHeaders : List (String × String) :=
  [("Access-Control-Allow-Origin", "*"),
   ("Access-Control-Allow-Methods", "POST, GET, OPTIONS"),
   ("Access-Control-Allow-Headers", "Content-Type, Accept, Authorization")]

/-- JavaScript strict equality with the number literal `0`
(`result.code !== 0` is its negation). -/
def isJsZero : JVal → Bool
  | .num n => n == 0
  | _ => false

/-- The plain-text projection assembled by the `text/plain` branch of
`createSuccessResponse` (src/utils/index.ts, lines 116-137), computed from
the already-cleaned result object. -/
def plainTextBody (result : List (String × JVal)) (filterAnsi : Bool) : String :=
  let b0 := "# " ++ textBanner ++ "\n"
  let b1 := b0 ++ textify ((lookupKey result "asm").getD JVal.undef) filterAnsi
  let codeVal := (lookupKey result "code").getD JVal.undef
  let b2 := if isJsZero codeVal then b1
    else b1 ++ "\n# Compiler exited with result code " ++ jsToString codeVal
  let stdoutVal := (lookupKey result "stdout").getD JVal.undef
  let b3 := if isEmptyJs stdoutVal then b2
    else b2 ++ "\nStandard out:\n" ++ textify stdoutVal filterAnsi
  let stderrVal := (lookupKey result "stderr").getD JVal.undef
  let b4 := if isEmptyJs stderrVal then b3
    else b3 ++ "\nStandard error:\n" ++ textify stderrVal filterAnsi
  let execVal := (lookupKey result "execResult").getD JVal.undef
  let b5 :=
    if execVal.truthy then
      let er := match execVal with
        | .obj fs => fs
        | _ => []
      let e0 := b4 ++ "\n\n# Execution result with exit code "
        ++ jsToString ((lookupKey er "code").getD JVal.undef) ++ "\n"
      let erOut := (lookupKey er "stdout").getD JVal.undef
      let e1 := if isEmptyJs erOut then e0
        else e0 ++ "# Standard out:\n" ++ textify erOut filterAnsi
      let erErr := (lookupKey er "stderr").getD JVal.undef
      if isEmptyJs erErr then e1
      else e1 ++ "\n# Standard error:\n" ++ textify erErr filterAnsi
    else b4
  b5 ++ "\n"

/-- The response built by `createSuccessResponse` from the result object
after its `guid`/`s3Key` cleanup. -/
def createSuccessResponseBody (result : List (String × JVal)) (filterAnsi : Bool)
    (acceptHeader : Option String) : ApiResponse :=
  let isText := match acceptHeader with
    | some a => jsIncludes (jsToLower a) "text/plain"
    | none => false
  if isText then
    ⟨200, ("Content-Type", "text/plain; charset=utf-8") :: corsHeaders,
      plainTextBody result filterAnsi⟩
  else
    ⟨200, ("Content-Type", "application/json; charset=utf-8") :: corsHeaders,
      JVal.stringify (JVal.obj result)⟩

/-- A heap of result objects, indexed by reference; used to express that
`createSuccessResponse` mutates the object the caller passed rather than a
copy. -/
def Heap : Type :=
  Nat → Option (List (String × JVal))

/-- Embedding of `createSuccessResponse` (src/utils/index.ts, lines
104-161).  It first executes `delete result.guid; delete result.s3Key` on
the object behind reference `r` and then shapes the response from that
mutated object. -/
def createSuccessResponse (h : Heap) (r : Nat) (filterAnsi : Bool)
    (acceptHeader : Option String) : Heap × ApiResponse :=
  let obj := (h r).getD []
  let cleaned := deleteKey (deleteKey obj "guid") "s3Key"
  (fun n => if n = r then some cleaned else h n,
   createSuccessResponseBody cleaned filterAnsi acceptHeader)

/-! Routing resolver: `lookupCompilerRouting` (src/services/routing.ts,
first revision in the concatenated source, lines 129-250). -/

/-- JavaScript `maybeEnvVar || fallback`: an unset variable reads as
`undefined` and an empty string is falsy, so both fall through. -/
def jsOrS (v : Option String) (fallback : String) : String :=
  match v with
  | some s => if s == "" then fallback else s
  | none => fallback

/-- The environment variables the routing resolver reads.
`blueUrlForEnv` / `greenUrlForEnv` stand for the per-environment variables
`SQS_QUEUE_URL_BLUE_$\x7bENV\x7d` / `SQS_QUEUE_URL_GREEN_$\x7bENV\x7d`. -/
structure RoutingCfg where
  envName : Option String
  blueUrlForEnv : Option String
  blueUrl : Option String
  greenUrlForEnv : Option String
  greenUrl : Option String

/-- `getEnvironmentName()` (src/services/routing.ts, lines 25-27). -/
def getEnvironmentName (cfg : RoutingCfg) : String :=
  jsOrS cfg.envName "unknown"

/-- `getBlueQueueUrl()` (src/services/routing.ts, lines 29-33). -/
def getBlueQueueUrl (cfg : RoutingCfg) : String :=
  let env := getEnvironmentName cfg
  jsOrS cfg.blueUrlForEnv (jsOrS cfg.blueUrl
    ("https://sqs.us-east-1.amazonaws.com/052730242331/" ++ env ++ "-compilation-queue-blue.fifo"))

/-- `getGreenQueueUrl()` (src/services/routing.ts, lines 35-39). -/
def getGreenQueueUrl (cfg : RoutingCfg) : String :=
  let env := getEnvironmentName cfg
  jsOrS cfg.greenUrlForEnv (jsOrS cfg.greenUrl
    ("https://sqs.us-east-1.amazonaws.com/052730242331/" ++ env ++ "-compilation-queue-green.fifo"))

/-- `getColoredQueueUrl()` (src/services/routing.ts, lines 86-96).
`activeColor` is the result of `getActiveColor()`, which never throws
(it defaults to `blue`); the error case is the `not configured` throw. -/
def getColoredQueueUrl (cfg : RoutingCfg) (activeColor : String) : Except Unit String :=
  let queueUrl := if activeColor == "green" then getGreenQueueUrl cfg else getBlueQueueUrl cfg
  if queueUrl == "" then .error () else .ok queueUrl

/-- JavaScript `s.lastIndexOf(c)` restricted to single characters,
`none` for -1. -/
def lastIndexOfChar (s : String) (c : Char) : Option Nat :=
  ((s.data.enum.filter (fun p => p.2 == c)).map Prod.fst).getLast?

/-- JavaScript `s.substring(0, n)`. -/
def jsSubstringTake (s : String) (n : Nat) : String :=
  String.mk (s.data.take n)

/-- Replacement scan for JavaScript `s.replace(pat, repl)` with a string
pattern: only the first occurrence is replaced. -/
def replaceFirstAux (pat repl : List Char) : List Char → List Char
  | [] => []
  | c :: rest =>
    if pat.isPrefixOf (c :: rest) then repl ++ (c :: rest).drop pat.length
    else c :: replaceFirstAux pat repl rest

/-- JavaScript `s.replace(pat, repl)` for literal string patterns. -/
def jsReplaceFirst (s pat repl : String) : String :=
  String.mk (replaceFirstAux pat.data repl.data s.data)

/-- Embedding of `buildQueueUrl` (src/services/routing.ts, lines 98-123);
errors are the `not configured` and `Invalid queue URL format` throws. -/
def buildQueueUrl (cfg : RoutingCfg) (queueName activeColor : String) : Except Unit String :=
  let templateUrl := if activeColor == "green" then getGreenQueueUrl cfg else getBlueQueueUrl cfg
  if templateUrl == "" then .error ()
  else
    match lastIndexOfChar templateUrl (Char.ofNat 47) with
    | none => .error ()
    | some i =>
      let baseUrl := jsSubstringTake templateUrl (i + 1)
      let finalQueueName :=
        if !jsIncludes queueName "-blue" && !jsIncludes queueName "-green" then
          jsReplaceFirst queueName ".fifo" "" ++ "-" ++ activeColor
        else queueName
      let fifoQueueName :=
        if ".fifo".data.isSuffixOf finalQueueName.data then finalQueueName
        else finalQueueName ++ ".fifo"
      .ok (baseUrl ++ fifoQueueName)

/-- Routing type of a resolved entry. -/
inductive RType where
  | url
  | queue

/-- The `RoutingInfo` interface (src/services/routing.ts, lines 19-23). -/
structure RoutingInfo where
  type : RType
  target : String
  environment : String

/-- A DynamoDB routing-table item: the four attributes read through
`item.attr?.S`, each `none` when absent. -/
structure RoutingItem where
  routingType : Option String
  targetUrl : Option String
  queueName : Option String
  environment : Option String

/-- Result of one DynamoDB `GetItemCommand`: an optional item, or a thrown
error. -/
inductive DbRes where
  | found (item : Option RoutingItem)
  | err

/-- The catch block of `lookupCompilerRouting` (src/services/routing.ts,
lines 240-249): fall back to the colored queue with environment
`unknown`; the cache is NOT written on this path. -/
def routingCatch (cfg : RoutingCfg) (activeColor : String)
    (cache : List (String × RoutingInfo)) :
    Except Unit (RoutingInfo × List (String × RoutingInfo)) :=
  match getColoredQueueUrl cfg activeColor with
  | .error e => .error e
  | .ok url => .ok (⟨.queue, url, "unknown"⟩, cache)

/-- The `No routing found` tail of `lookupCompilerRouting`
(src/services/routing.ts, lines 228-239): colored queue, environment
`unknown`, result cached under the composite key.  A throw from
`getColoredQueueUrl` lands in the catch block. -/
def routingNoEntry (cfg : RoutingCfg) (activeColor : String)
    (cache : List (String × RoutingInfo)) (cacheKey : String) :
    Except Unit (RoutingInfo × List (String × RoutingInfo)) :=
  match getColoredQueueUrl cfg activeColor with
  | .error _ => routingCatch cfg activeColor cache
  | .ok url => .ok (⟨RType.queue, url, "unknown"⟩, setKey cache cacheKey ⟨RType.queue, url, "unknown"⟩)

/-- The queue branch fallback when the item has no usable `queueName`
(src/services/routing.ts, lines 213-224): colored queue with the item's
environment, cached. -/
def routingItemColored (cfg : RoutingCfg) (activeColor : String)
    (cache : List (String × RoutingInfo)) (cacheKey : String) (item : RoutingItem) :
    Except Unit (RoutingInfo × List (String × RoutingInfo)) :=
  match getColoredQueueUrl cfg activeColor with
  | .error _ => routingCatch cfg activeColor cache
  | .ok url =>
    let result : RoutingInfo := ⟨RType.queue, url, jsOrS item.environment ""⟩
    .ok (result, setKey cache cacheKey result)

/-- The body of `lookupCompilerRouting` once an item was found
(src/services/routing.ts, lines 179-226). -/
def routingFromItem (cfg : RoutingCfg) (activeColor : String)
    (cache : List (String × RoutingInfo)) (cacheKey : String) (item : RoutingItem) :
    Except Unit (RoutingInfo × List (String × RoutingInfo)) :=
  let routingType := jsOrS item.routingType "queue"
  if routingType == "url" then
    let targetUrl := jsOrS item.targetUrl ""
    if targetUrl != "" then
      let result : RoutingInfo := ⟨RType.url, targetUrl, jsOrS item.environment ""⟩
      .ok (result, setKey cache cacheKey result)
    else
      routingNoEntry cfg activeColor cache cacheKey
  else
    match item.queueName with
    | some qn =>
      if qn != "" then
        match buildQueueUrl cfg qn activeColor with
        | .error _ => routingCatch cfg activeColor cache
        | .ok url =>
          let result : RoutingInfo := ⟨RType.queue, url, jsOrS item.environment ""⟩
          .ok (result, setKey cache cacheKey result)
      else routingItemColored cfg activeColor cache cacheKey item
    | none => routingItemColored cfg activeColor cache cacheKey item

/-- Embedding of `lookupCompilerRouting` (src/services/routing.ts, lines
129-250).  `db` stands for the DynamoDB point reads (applied first to the
composite key, then, on a miss, to the bare compiler id); `cache` is the
module-level `routingCache`.  Returns the routing and the cache after the
call; `Except.error` is an unhandled rejection (only possible when even
the colored-queue fallback throws). -/
def lookupCompilerRouting (cfg : RoutingCfg) (activeColor : String) (db : String → DbRes)
    (cache : List (String × RoutingInfo)) (compilerId : String) :
    Except Unit (RoutingInfo × List (String × RoutingInfo)) :=
  let environmentName := getEnvironmentName cfg
  let cacheKey := environmentName ++ "#" ++ compilerId
  match lookupKey cache cacheKey with
  | some cachedEntry => .ok (cachedEntry, cache)
  | none =>
    match db cacheKey with
    | .err => routingCatch cfg activeColor cache
    | .found (some item) => routingFromItem cfg activeColor cache cacheKey item
    | .found none =>
      match db compilerId with
      | .err => routingCatch cfg activeColor cache
      | .found (some item) => routingFromItem cfg activeColor cache cacheKey item
      | .found none => routingNoEntry cfg activeColor cache cacheKey

end CeRouter

namespace CeRouter

theorem lookupKey_setKey_self {α : Type} (m : List (String × α)) (k : String) (v : α) :
    lookupKey (setKey m k v) k = some v := by
  induction m with
  | nil => simp [setKey, lookupKey]
  | cons p rest ih =>
    by_cases h : p.1 == k
    · simp [setKey, h, lookupKey]
    · simp [setKey, h, lookupKey, ih]

theorem lookupKey_setKey_other {α : Type} (m : List (String × α)) (k k2 : String) (v : α)
    (h : k2 ≠ k) : lookupKey (setKey m k v) k2 = lookupKey m k2 := by
  have h2 : ¬k = k2 := fun he => h he.symm
  induction m with
  | nil => simp [setKey, lookupKey, h2]
  | cons p rest ih =>
    by_cases hp : p.1 = k
    · simp [setKey, hp, lookupKey, h2]
    · simp [setKey, hp, lookupKey, ih]

theorem lookupKey_deleteKey_self {α : Type} (m : List (String × α)) (k : String) :
    lookupKey (deleteKey m k) k = none := by
  induction m with
  | nil => simp [deleteKey, lookupKey]
  | cons p rest ih =>
    by_cases hp : p.1 = k
    · simpa [deleteKey, hp] using ih
    · simpa [deleteKey, hp, lookupKey] using ih

theorem lookupKey_deleteKey_other {α : Type} (m : List (String × α)) (k k2 : String)
    (h : k2 ≠ k) : lookupKey (deleteKey m k) k2 = lookupKey m k2 := by
  induction m with
  | nil => simp [deleteKey, lookupKey]
  | cons p rest ih =>
    by_cases hp : p.1 = k
    · have hq : ¬p.1 = k2 := by
        rw [hp]
        exact fun he => h he.symm
      rw [show deleteKey (p :: rest) k = deleteKey rest k by simp [deleteKey, hp]]
      rw [ih]
      simp [lookupKey, hq]
    · rw [show deleteKey (p :: rest) k = p :: deleteKey rest k by simp [deleteKey, hp]]
      by_cases hq : p.1 = k2
      · simp [lookupKey, hq]
      · simp [lookupKey, hq, ih]

theorem lookupKey_eq_none_iff {α : Type} (m : List (String × α)) (k : String) :
    lookupKey m k = none ↔ k ∉ m.map Prod.fst := by
  induction m with
  | nil => simp [lookupKey]
  | cons p rest ih =>
    by_cases hp : p.1 = k
    · simp [lookupKey, hp]
    · have hb : (p.1 == k) = false := by simpa using hp
      have hne : ¬k = p.1 := fun he => hp he.symm
      simp [lookupKey, hb, ih, hne]

theorem spreadMerge_cons (base : List (String × JVal)) (p : String × JVal)
    (fs : List (String × JVal)) :
    spreadMerge base (p :: fs) = spreadMerge (setKey base p.1 p.2) fs := rfl

theorem lookupKey_spreadMerge (base fs : List (String × JVal)) (k : String)
    (hnd : (fs.map Prod.fst).Nodup) :
    lookupKey (spreadMerge base fs) k
      = match lookupKey fs k with
        | some v => some v
        | none => lookupKey base k := by
  induction fs generalizing base with
  | nil => simp [spreadMerge, lookupKey]
  | cons p rest ih =>
    simp only [List.map_cons, List.nodup_cons] at hnd
    rw [spreadMerge_cons]
    rw [ih _ hnd.2]
    by_cases hp : p.1 = k
    · have hnone : lookupKey rest k = none := by
        rw [lookupKey_eq_none_iff]
        rw [← hp]
        exact hnd.1
      have hb : (p.1 == k) = true := by simpa using hp
      simp only [hnone, lookupKey, hb, if_true]
      rw [hp]
      exact lookupKey_setKey_self base k p.2
    · have hb : (p.1 == k) = false := by simpa using hp
      have hset : lookupKey (setKey base p.1 p.2) k = lookupKey base k :=
        lookupKey_setKey_other _ _ _ _ (fun he => hp he.symm)
      simp [lookupKey, hb, hset]

theorem lookupKey_spreadMerge_not_mem (base fs : List (String × JVal)) (k : String)
    (h : lookupKey fs k = none) :
    lookupKey (spreadMerge base fs) k = lookupKey base k := by
  induction fs generalizing base with
  | nil => simp [spreadMerge]
  | cons p rest ih =>
    rw [spreadMerge_cons]
    by_cases hp : p.1 = k
    · exfalso
      simp [lookupKey, hp] at h
    · have hr : lookupKey rest k = none := by
        simpa [lookupKey, show (p.1 == k) = false by simpa using hp] using h
      rw [ih _ hr]
      exact lookupKey_setKey_other _ _ _ _ (fun he => hp he.symm)

theorem applyDefaults_cons (p : String × JVal) (ds : List (String × JVal))
    (m : List (String × JVal)) :
    applyDefaults (p :: ds) m = applyDefaults ds (applyDefault m p.1 p.2) := rfl

theorem applyDefaults_lookup_not_mem (ds : List (String × JVal)) (m : List (String × JVal))
    (k : String) (h : k ∉ ds.map Prod.fst) :
    lookupKey (applyDefaults ds m) k = lookupKey m k := by
  induction ds generalizing m with
  | nil => simp [applyDefaults]
  | cons p rest ih =>
    simp only [List.map_cons, List.mem_cons, not_or] at h
    rw [applyDefaults_cons, ih _ h.2]
    exact lookupKey_setKey_other _ _ _ _ h.1

theorem applyDefaults_lookup_mem (ds : List (String × JVal)) (m : List (String × JVal))
    (k : String) (d : JVal) (hnd : (ds.map Prod.fst).Nodup) (hmem : (k, d) ∈ ds) :
    lookupKey (applyDefaults ds m) k
      = some (jsOr ((lookupKey m k).getD JVal.undef) d) := by
  induction ds generalizing m with
  | nil => cases hmem
  | cons p rest ih =>
    simp only [List.map_cons, List.nodup_cons] at hnd
    rcases List.mem_cons.mp hmem with hhead | htail
    · subst hhead
      rw [applyDefaults_cons]
      rw [applyDefaults_lookup_not_mem _ _ _ hnd.1]
      simp [applyDefault, lookupKey_setKey_self]
    · have hk : k ≠ p.1 := by
        intro he
        exact hnd.1 (he ▸ (List.mem_map.mpr ⟨(k, d), htail, rfl⟩))
      rw [applyDefaults_cons, ih _ hnd.2 htail]
      rw [show lookupKey (applyDefault m p.1 p.2) k = lookupKey m k from
        lookupKey_setKey_other _ _ _ _ hk]

theorem foldl_deleteKey_not_mem {α : Type} (ks : List String) (m : List (String × α))
    (k : String) (h : k ∉ ks) :
    lookupKey (ks.foldl deleteKey m) k = lookupKey m k := by
  induction ks generalizing m with
  | nil => simp
  | cons k0 rest ih =>
    simp only [List.mem_cons, not_or] at h
    simp only [List.foldl_cons]
    rw [ih _ h.2]
    exact lookupKey_deleteKey_other _ _ _ h.1

theorem foldl_deleteKey_mem {α : Type} (ks : List String) (m : List (String × α))
    (k : String) (h : k ∈ ks) :
    lookupKey (ks.foldl deleteKey m) k = none := by
  induction ks generalizing m with
  | nil => cases h
  | cons k0 rest ih =>
    simp only [List.foldl_cons]
    by_cases hk : k ∈ rest
    · exact ih _ hk
    · have hk0 : k = k0 := by
        rcases List.mem_cons.mp h with h1 | h2
        · exact h1
        · exact absurd h2 hk
      rw [foldl_deleteKey_not_mem _ _ _ hk]
      rw [hk0]
      exact lookupKey_deleteKey_self _ _

theorem stringAppendLeftCancel (p a b : String) (h : p ++ a = p ++ b) : a = b := by
  have hd : (p ++ a).data = (p ++ b).data := by rw [h]
  simp only [String.data_append] at hd
  exact String.ext (List.append_cancel_left hd)

theorem nodup_keys_val_eq {α : Type} (l : List (String × α))
    (hnd : (l.map Prod.fst).Nodup) (g : String) (a b : α)
    (ha : (g, a) ∈ l) (hb : (g, b) ∈ l) : a = b := by
  induction l with
  | nil => cases ha
  | cons p rest ih =>
    simp only [List.map_cons, List.nodup_cons] at hnd
    rcases List.mem_cons.mp ha with ha1 | ha2
    · rcases List.mem_cons.mp hb with hb1 | hb2
      · rw [← ha1] at hb1
        exact (Prod.mk.injEq _ _ _ _ ▸ hb1).2.symm
      · exfalso
        exact hnd.1 (List.mem_map.mpr ⟨(g, b), hb2, by rw [← ha1]⟩)
    · rcases List.mem_cons.mp hb with hb1 | hb2
      · exfalso
        exact hnd.1 (List.mem_map.mpr ⟨(g, a), ha2, by rw [← hb1]⟩)
      · exact ih hnd.2 ha2 hb2

/-- C9: `parseRequestBody` returns the JSON-decoded value when the content
type indicates JSON and decoding succeeds, returns `(source: rawBody)`
when decoding fails or the content type is not JSON, and returns the empty
mapping for an empty body.  The embedding is a total function — the parse
exception is caught inside, so nothing is raised to the caller. -/
theorem C9_parseRequestBody (jsonParse : String → Option JVal) (body : String)
    (contentType : Option String) :
    (body = "" → parseRequestBody jsonParse body contentType = JVal.obj [])
    ∧ (∀ v, body ≠ "" → contentTypeIsJson contentType = true → jsonParse body = some v →
        parseRequestBody jsonParse body contentType = v)
    ∧ (body ≠ "" → (contentTypeIsJson contentType = false ∨ jsonParse body = none) →
        parseRequestBody jsonParse body contentType = JVal.obj [("source", JVal.str body)]) := by
  refine ⟨?_, ?_, ?_⟩
  · intro h
    simp [parseRequestBody, h]
  · intro v hb hct hj
    have hb2 : (body == "") = false := by simpa using hb
    simp [parseRequestBody, hb2, hct, hj]
  · intro hb hcase
    have hb2 : (body == "") = false := by simpa using hb
    rcases hcase with hct | hj
    · simp [parseRequestBody, hb2, hct]
    · by_cases hct : contentTypeIsJson contentType = true
      · simp [parseRequestBody, hb2, hct, hj]
      · simp only [Bool.not_eq_true] at hct
        simp [parseRequestBody, hb2, hct]

/-- Witness for C9 at a concrete input: a plain-text body is wrapped as a
source field. -/
theorem C9_witness :
    parseRequestBody (fun _ => none) "abc" (some "text/plain")
      = JVal.obj [("source", JVal.str "abc")] :=
  (C9_parseRequestBody (fun _ => none) "abc" (some "text/plain")).2.2
    (by decide) (Or.inl (by rfl))

/-- C10: `createSuccessResponse` deletes `guid` and `s3Key` in place from
the very result object the caller passed (the heap cell `r` the caller
holds is updated), leaves every other field of that object unchanged, and
leaves every other heap cell untouched. -/
theorem C10_createSuccessResponse (h : Heap) (r : Nat) (filterAnsi : Bool)
    (acceptHeader : Option String) (obj : List (String × JVal)) (hr : h r = some obj) :
    ((createSuccessResponse h r filterAnsi acceptHeader).1 r
      = some (deleteKey (deleteKey obj "guid") "s3Key"))
    ∧ lookupKey (deleteKey (deleteKey obj "guid") "s3Key") "guid" = none
    ∧ lookupKey (deleteKey (deleteKey obj "guid") "s3Key") "s3Key" = none
    ∧ (∀ k, k ≠ "guid" → k ≠ "s3Key" →
        lookupKey (deleteKey (deleteKey obj "guid") "s3Key") k = lookupKey obj k)
    ∧ (∀ n, n ≠ r → (createSuccessResponse h r filterAnsi acceptHeader).1 n = h n) := by
  refine ⟨?_, ?_, ?_, ?_, ?_⟩
  · simp [createSuccessResponse, hr]
  · rw [lookupKey_deleteKey_other _ _ _ (by decide)]
    exact lookupKey_deleteKey_self _ _
  · exact lookupKey_deleteKey_self _ _
  · intro k hk1 hk2
    rw [lookupKey_deleteKey_other _ _ _ hk2]
    exact lookupKey_deleteKey_other _ _ _ hk1
  · intro n hn
    simp [createSuccessResponse, hn]

/-- Witness for C10 at a concrete heap: the caller's object loses its
`guid` key and keeps its `code` field. -/
theorem C10_witness :
    ((createSuccessResponse
        (fun n => if n = 0 then some [("guid", JVal.str "g"), ("code", JVal.num 0)] else none)
        0 false none).1 0)
      = some [("code", JVal.num 0)] := by
  have hw := C10_createSuccessResponse
    (fun n => if n = 0 then some [("guid", JVal.str "g"), ("code", JVal.num 0)] else none)
    0 false none [("guid", JVal.str "g"), ("code", JVal.num 0)] rfl
  exact hw.1.trans (by rfl)

/-- C7 counterexample: the claim says `ResultWaiter.unsubscribe` removes
the waiter registered for the id from the waiter mapping.  It does not:
with a waiter registered for `g`, the waiter mapping after the call still
holds that waiter unchanged (the source calls only the event-bus
unsubscribe and never touches `this.subscriptions`). -/
theorem C7_counterexample :
    ((ResultWaiter.unsubscribe ⟨[("g", 7)]⟩ ⟨true, ["g"], [("g", 5)]⟩ "g").1).subscriptions
      = [("g", 7)] := rfl

/-- C7 amended: `unsubscribe(correlationId)` calls the event-bus
unsubscribe for that id (removing it from the event-bus bookkeeping and
sending the frame when connected, errors swallowed) but leaves the waiter
mapping completely unchanged. -/
theorem C7_unsubscribe_amended (st : RWState) (ws : WsState) (guid : String) :
    (ResultWaiter.unsubscribe st ws guid).1 = st
    ∧ (ResultWaiter.unsubscribe st ws guid).2.1 = (WebSocketManager.unsubscribe ws guid).1
    ∧ (ResultWaiter.unsubscribe st ws guid).2.2 = (WebSocketManager.unsubscribe ws guid).2
    ∧ (∀ t, t ∈ ((ResultWaiter.unsubscribe st ws guid).2.1).subs → t ≠ guid)
    ∧ lookupKey ((ResultWaiter.unsubscribe st ws guid).2.1).pending guid = none := by
  refine ⟨rfl, rfl, rfl, ?_, ?_⟩
  · intro t ht
    have := List.of_mem_filter (p := fun t => t != guid) ht
    simpa using this
  · exact lookupKey_deleteKey_self _ _

/-- Witness for C7 at a concrete state: the waiter mapping is returned
unchanged while the pending entry for the id is gone from the event-bus
bookkeeping. -/
theorem C7_witness :
    (ResultWaiter.unsubscribe ⟨[("h", 3)]⟩ ⟨true, ["h"], [("h", 9)]⟩ "h").1 = ⟨[("h", 3)]⟩
    ∧ lookupKey ((ResultWaiter.unsubscribe ⟨[("h", 3)]⟩ ⟨true, ["h"], [("h", 9)]⟩ "h").2.1).pending
        "h" = none :=
  ⟨(C7_unsubscribe_amended ⟨[("h", 3)]⟩ ⟨true, ["h"], [("h", 9)]⟩ "h").1,
   (C7_unsubscribe_amended ⟨[("h", 3)]⟩ ⟨true, ["h"], [("h", 9)]⟩ "h").2.2.2.2⟩

/-- C8 counterexample: the claim says a second `waitForResult` call for an
already-registered id fails rather than silently replacing the first
waiter.  In the source the registration is an unconditional `Map.set`, so
the second waiter (token 2) silently replaces the first (token 1) and no
error is raised — the call is an ordinary total registration. -/
theorem C8_counterexample :
    (ResultWaiter.waitForResult (ResultWaiter.waitForResult ⟨[]⟩ "g" 1) "g" 2).subscriptions
      = [("g", 2)] := rfl

/-- C8 amended: a second `waitForResult` call for the same id does not
fail; it silently replaces the first waiter — afterwards the mapping holds
exactly the second waiter under that id. -/
theorem C8_waitForResult_amended (st : RWState) (guid : String) (w1 w2 : Nat) :
    lookupKey (ResultWaiter.waitForResult
        (ResultWaiter.waitForResult st guid w1) guid w2).subscriptions guid = some w2 := by
  exact lookupKey_setKey_self _ _ _

/-- C6 counterexample: the claim says the response headers returned by the
forwarder contain none of the hop-by-hop set nor `via`.  The source only
deletes `transfer-encoding`, `connection` and `upgrade` from the response
headers, so a backend `via` header survives. -/
theorem C6_counterexample :
    lookupKey (cleanResponseHeaders [("via", "1.1 proxy")]) "via" = some "1.1 proxy" := rfl

/-- C6 amended: the flattened forwarded request headers contain none of
the seven hop-by-hop headers, and the response headers are stripped of
exactly `transfer-encoding`, `connection` and `upgrade` (all other
response headers, including `proxy-authenticate`, `proxy-authorization`,
`te`, `trailers` and `via`, pass through unchanged). -/
theorem C6_headers_amended :
    (∀ (headers : List (String × HVal)) (k : String),
      k ∈ ["connection", "upgrade", "proxy-authenticate", "proxy-authorization",
           "te", "trailers", "transfer-encoding"] →
      lookupKey (prepareForwardHeaders headers) k = none)
    ∧ (∀ (rh : List (String × String)) (k : String),
        k ∈ ["transfer-encoding", "connection", "upgrade"] →
        lookupKey (cleanResponseHeaders rh) k = none)
    ∧ (∀ (rh : List (String × String)) (k : String),
        k ∉ ["transfer-encoding", "connection", "upgrade"] →
        lookupKey (cleanResponseHeaders rh) k = lookupKey rh k) := by
  have hpf : ∀ headers : List (String × HVal), prepareForwardHeaders headers
      = ["connection", "upgrade", "proxy-authenticate", "proxy-authorization",
         "te", "trailers", "transfer-encoding"].foldl deleteKey
        (headers.foldl (fun acc p => setKey acc p.1 (flattenHeaderValue p.2)) []) :=
    fun _ => rfl
  have hcl : ∀ rh : List (String × String), cleanResponseHeaders rh
      = ["transfer-encoding", "connection", "upgrade"].foldl deleteKey rh :=
    fun _ => rfl
  refine ⟨?_, ?_, ?_⟩
  · intro headers k hk
    rw [hpf]
    exact foldl_deleteKey_mem _ _ _ hk
  · intro rh k hk
    rw [hcl]
    exact foldl_deleteKey_mem _ _ _ hk
  · intro rh k hk
    rw [hcl]
    exact foldl_deleteKey_not_mem _ _ _ hk

/-- Witness for C6 at concrete headers: `connection` is stripped from the
forwarded request headers and a `server` response header passes through. -/
theorem C6_witness :
    lookupKey (prepareForwardHeaders
        [("connection", HVal.s "keep-alive"), ("accept", HVal.s "text/html")]) "connection" = none
    ∧ lookupKey (cleanResponseHeaders [("server", "nginx")]) "server" = some "nginx" := by
  refine ⟨C6_headers_amended.1 _ "connection" (by decide), ?_⟩
  rw [C6_headers_amended.2.2 [("server", "nginx")] "server" (by decide)]
  rfl

/-- C1 counterexample: the claim says a pending entry exactly 60 s old is
expired on reconnect and not resubscribed.  The source expires only
entries strictly older (`now - timestamp > 60000`): with `now = 60000` and
an entry recorded at time 0, the entry is kept and `subscribe: g` is
reissued, contradicting the claim. -/
theorem C1_counterexample :
    resubscribePendingSubscriptions 60000 [("g", 0)] = ([("g", 0)], ["subscribe: g"]) := rfl

/-- C1 amended: on each reconnect, every pending entry strictly older than
60 s is dropped without being resubscribed, and every entry 60 s old or
younger (the exactly-60 s entry included) is kept and has its
`subscribe:` frame reissued exactly once. -/
theorem C1_resubscribe_amended (now : Nat) (pending : List (String × Nat))
    (hnd : (pending.map Prod.fst).Nodup) (g : String) (ts : Nat)
    (hmem : (g, ts) ∈ pending) :
    (60000 < now - ts →
      (resubscribePendingSubscriptions now pending).2.count ("subscribe: " ++ g) = 0
      ∧ lookupKey (resubscribePendingSubscriptions now pending).1 g = none)
    ∧ (now - ts ≤ 60000 →
      (resubscribePendingSubscriptions now pending).2.count ("subscribe: " ++ g) = 1
      ∧ (g, ts) ∈ (resubscribePendingSubscriptions now pending).1) := by
  have hinj : Function.Injective (fun t : String => "subscribe: " ++ t) :=
    fun a b hab => stringAppendLeftCancel _ _ _ hab
  have hframes : (resubscribePendingSubscriptions now pending).2
      = ((pending.filter (fun p => !pendingExpired now p.2)).map Prod.fst).map
          (fun t : String => "subscribe: " ++ t) := by
    simp [resubscribePendingSubscriptions, List.map_map]
  have hcount : (resubscribePendingSubscriptions now pending).2.count ("subscribe: " ++ g)
      = ((pending.filter (fun p => !pendingExpired now p.2)).map Prod.fst).count g := by
    rw [hframes]
    exact List.count_map_of_injective _ _ hinj g
  have hkeysnd : ((pending.filter (fun p => !pendingExpired now p.2)).map Prod.fst).Nodup :=
    ((List.filter_sublist pending).map Prod.fst).nodup hnd
  constructor
  · intro hexp
    have hnotkey : g ∉ (pending.filter (fun p => !pendingExpired now p.2)).map Prod.fst := by
      intro hg
      rcases List.mem_map.mp hg with ⟨p, hpmem, hpk⟩
      have hp2 : (g, p.2) ∈ pending := by
        have hpp := List.mem_of_mem_filter hpmem
        rw [← hpk, Prod.mk.eta]
        exact hpp
      have hts : p.2 = ts := nodup_keys_val_eq pending hnd g p.2 ts hp2 hmem
      have hkeep := List.of_mem_filter hpmem
      rw [hts] at hkeep
      simp [pendingExpired, hexp] at hkeep
    refine ⟨?_, ?_⟩
    · rw [hcount]
      exact List.count_eq_zero.mpr hnotkey
    · exact (lookupKey_eq_none_iff _ _).mpr hnotkey
  · intro hyoung
    have hkeep : (!pendingExpired now ts) = true := by
      simp [pendingExpired]
      omega
    have hmemR : (g, ts) ∈ pending.filter (fun p => !pendingExpired now p.2) :=
      List.mem_filter.mpr ⟨hmem, hkeep⟩
    refine ⟨?_, hmemR⟩
    rw [hcount]
    exact List.count_eq_one_of_mem hkeysnd
      (List.mem_map.mpr ⟨(g, ts), hmemR, rfl⟩)

/-- Witness for C1: at a reconnect 100 s after entry `a` was recorded and
10 s after entry `b`, only `b` is resubscribed, exactly once. -/
theorem C1_witness :
    (resubscribePendingSubscriptions 100000 [("a", 0), ("b", 90000)]).2.count
        ("subscribe: " ++ "a") = 0
    ∧ (resubscribePendingSubscriptions 100000 [("a", 0), ("b", 90000)]).2.count
        ("subscribe: " ++ "b") = 1 := by
  have h1 := C1_resubscribe_amended 100000 [("a", 0), ("b", 90000)] (by decide) "a" 0
    (by decide)
  have h2 := C1_resubscribe_amended 100000 [("a", 0), ("b", 90000)] (by decide) "b" 90000
    (by decide)
  exact ⟨(h1.1 (by decide)).1, (h2.2 (by decide)).1⟩

/-- C2 counterexample: the claim says every message that has `s3Key` but
also carries payload fields is used as-is with no fetch.  A message
carrying `asm` with a falsy value (the empty string) still fails the
source's truthiness test `message.asm || ...`, so the fetch happens
anyway: the second component records the performed fetch of `cache/k`. -/
theorem C2_counterexample :
    (resolveS3FileIfNeeded (fun _ => some (JVal.obj [("code", JVal.num 0)])) "cache/"
        (JVal.obj [("guid", JVal.str "g"), ("s3Key", JVal.str "k"), ("asm", JVal.str "")])).2
      = some "cache/k" := rfl

/-- C2 amended: for a bus message with a (truthy) `s3Key`, if all six
payload fields `asm`, `stdout`, `stderr`, `code`, `output`, `result` are
absent, the correlator fetches `prefix ++ s3Key` and completes with the
fetched object merged first and the message overlaid (preserving `guid`),
or with the exact synthetic error result on fetch/parse failure; and if
the message carries truthy payload data in the source's sense
(`hasTypicalResultData`), it is used as-is with no fetch.  Payload fields
that are present but falsy do NOT prevent the fetch. -/
theorem C2_resolve_amended (fetchJson : String → Option JVal) (resultsPref : String)
    (fs : List (String × JVal)) (k : String)
    (hs3 : lookupKey fs "s3Key" = some (JVal.str k)) (hk : k ≠ "") :
    (lookupKey fs "asm" = none → lookupKey fs "stdout" = none →
     lookupKey fs "stderr" = none → lookupKey fs "code" = none →
     lookupKey fs "output" = none → lookupKey fs "result" = none →
      resolveS3FileIfNeeded fetchJson resultsPref (JVal.obj fs)
        = match fetchJson (resultsPref ++ k) with
          | some content =>
            (JVal.obj (spreadMerge (spreadFields content) fs), some (resultsPref ++ k))
          | none => (s3ErrorResult fs, some (resultsPref ++ k)))
    ∧ (hasTypicalResultData fs = true →
        resolveS3FileIfNeeded fetchJson resultsPref (JVal.obj fs) = (JVal.obj fs, none)) := by
  have hkt : (k != "") = true := by simpa using hk
  constructor
  · intro h1 h2 h3 h4 h5 h6
    have hnotyp : hasTypicalResultData fs = false := by
      simp [hasTypicalResultData, h1, h2, h3, h4, h5, h6, JVal.truthy]
    simp [resolveS3FileIfNeeded, hs3, JVal.truthy, hkt, hnotyp, jsToString]
  · intro htyp
    simp [resolveS3FileIfNeeded, hs3, JVal.truthy, hkt, htyp]

/-- Witness for C2: a lightweight message (only `guid` and `s3Key`) is
completed with the fetched object under the message overlay. -/
theorem C2_witness :
    resolveS3FileIfNeeded (fun _ => some (JVal.obj [("code", JVal.num 0)])) "cache/"
        (JVal.obj [("guid", JVal.str "g"), ("s3Key", JVal.str "k")])
      = (JVal.obj [("code", JVal.num 0), ("guid", JVal.str "g"), ("s3Key", JVal.str "k")],
         some "cache/k") := by
  have h := (C2_resolve_amended (fun _ => some (JVal.obj [("code", JVal.num 0)])) "cache/"
      [("guid", JVal.str "g"), ("s3Key", JVal.str "k")] "k" rfl (by decide)).1
    rfl rfl rfl rfl rfl rfl
  exact h.trans (by rfl)

/-- C3 counterexample: the claim says the default-fill step never
overwrites a field value supplied by the parsed body.  A JSON body
supplying `filters: null` is overwritten: `messageBody.filters =
messageBody.filters || \x7b\x7d` replaces the falsy `null` by the empty
mapping. -/
theorem C3_counterexample :
    lookupKey (buildMessageBody "g" "c" false (JVal.obj []) (JVal.obj [])
        (parseRequestBody (fun _ => some (JVal.obj [("filters", JVal.null)]))
          "\x7b\"filters\":null\x7d" (some "application/json")))
      "filters" = some (JVal.obj [])
    ∧ JVal.obj [] ≠ JVal.null := by
  refine ⟨rfl, ?_⟩
  intro h
  exact JVal.noConfusion h

/-- C3 amended: the queue message is the merge of the Lambda base fields
with the parsed body overlaid; the defaulting step then fills each of the
eight required fields whose merged value is missing or JavaScript-falsy
with its default, leaves every non-required field alone, and never
overwrites a truthy body-supplied value (falsy body values ARE replaced). -/
theorem C3_merge_amended (guid compilerId : String) (isCmake : Bool) (hdrs q : JVal)
    (fs : List (String × JVal)) (hnd : (fs.map Prod.fst).Nodup) :
    (∀ k, lookupKey (spreadMerge (sqsBaseFields guid compilerId isCmake hdrs q) fs) k
        = match lookupKey fs k with
          | some v => some v
          | none => lookupKey (sqsBaseFields guid compilerId isCmake hdrs q) k)
    ∧ (∀ k d, (k, d) ∈ requiredDefaults →
        lookupKey (buildMessageBody guid compilerId isCmake hdrs q (JVal.obj fs)) k
          = some (jsOr ((lookupKey
              (spreadMerge (sqsBaseFields guid compilerId isCmake hdrs q) fs) k).getD
                JVal.undef) d))
    ∧ (∀ k, k ∉ requiredDefaults.map Prod.fst →
        lookupKey (buildMessageBody guid compilerId isCmake hdrs q (JVal.obj fs)) k
          = lookupKey (spreadMerge (sqsBaseFields guid compilerId isCmake hdrs q) fs) k)
    ∧ (∀ k v, lookupKey fs k = some v → v.truthy = true →
        lookupKey (buildMessageBody guid compilerId isCmake hdrs q (JVal.obj fs)) k
          = some v) := by
  have hbuild : buildMessageBody guid compilerId isCmake hdrs q (JVal.obj fs)
      = applyDefaults requiredDefaults
          (spreadMerge (sqsBaseFields guid compilerId isCmake hdrs q) fs) := rfl
  have hreqnd : (requiredDefaults.map Prod.fst).Nodup := by decide
  have hoverlay : ∀ k, lookupKey (spreadMerge (sqsBaseFields guid compilerId isCmake hdrs q) fs) k
      = match lookupKey fs k with
        | some v => some v
        | none => lookupKey (sqsBaseFields guid compilerId isCmake hdrs q) k :=
    fun k => lookupKey_spreadMerge _ _ k hnd
  refine ⟨hoverlay, ?_, ?_, ?_⟩
  · intro k d hkd
    rw [hbuild]
    exact applyDefaults_lookup_mem _ _ _ _ hreqnd hkd
  · intro k hk
    rw [hbuild]
    exact applyDefaults_lookup_not_mem _ _ _ hk
  · intro k v hkv htr
    have hmerged : lookupKey (spreadMerge (sqsBaseFields guid compilerId isCmake hdrs q) fs) k
        = some v := by
      rw [hoverlay k, hkv]
    by_cases hreq : k ∈ requiredDefaults.map Prod.fst
    · rcases List.mem_map.mp hreq with ⟨p, hpmem, hpk⟩
      have hkd : (k, p.2) ∈ requiredDefaults := by
        rw [← hpk]
        exact hpmem
      rw [hbuild]
      rw [applyDefaults_lookup_mem _ _ _ _ hreqnd hkd]
      rw [hmerged]
      simp [jsOr, htr]
    · rw [hbuild]
      rw [applyDefaults_lookup_not_mem _ _ _ hreq]
      exact hmerged

/-- Witness for C3: a truthy body-supplied `source` survives the
defaulting step. -/
theorem C3_witness :
    lookupKey (buildMessageBody "g" "c" false (JVal.obj []) (JVal.obj [])
      (JVal.obj [("source", JVal.str "int main()")])) "source"
      = some (JVal.str "int main()") :=
  (C3_merge_amended "g" "c" false (JVal.obj []) (JVal.obj [])
    [("source", JVal.str "int main()")] (by simp)).2.2.2 "source"
    (JVal.str "int main()") rfl (by rfl)

/-- C4 counterexample: the claim concludes that every enqueued body's
serialised size is at most `sqsMaxMessageSize`.  With the size limit
configured to 10 bytes, a small message overflows and the enqueued
overflow envelope itself (128 bytes here) still exceeds the limit: the
envelope's size is not bounded by the limit. -/
theorem C4_counterexample :
    sendToSqs ⟨10, "b", "p/"⟩ "prod" (fun _ => none) "ts" "ts" "g" "c" "" false [] [] "q"
      = .ok ⟨some ("b", "p/prod/ts/g.json",
            sqsMessageJson (fun _ => none) "g" "c" "" false [] [], 203),
          JVal.stringify (overflowEnvelope ⟨10, "b", "p/"⟩ "prod" "ts" "ts" "g" "c" 203),
          "default", "g"⟩
    ∧ 10 < (JVal.stringify
        (overflowEnvelope ⟨10, "b", "p/"⟩ "prod" "ts" "ts" "g" "c" 203)).utf8ByteSize := by
  exact ⟨rfl, by decide⟩

/-- C4 amended: a message whose serialised size strictly exceeds
`sqsMaxMessageSize` is written in full to the object store and replaced by
an `s3-overflow` envelope whose `originalSize` is that (limit-exceeding)
size; a message at or below the limit is enqueued unchanged with no S3
write.  The envelope itself is not guaranteed to be within the limit. -/
theorem C4_overflow_amended (cfg : OverflowCfg) (envName : String)
    (jsonParse : String → Option JVal) (nowIsoKey nowIsoEnvelope : String)
    (guid compilerId body : String) (isCmake : Bool)
    (headers queryStringParameters : List (String × JVal)) (queueUrl : String)
    (hq : queueUrl ≠ "") :
    (cfg.maxMessageSize < (sqsMessageJson jsonParse guid compilerId body isCmake headers
        queryStringParameters).utf8ByteSize →
      sendToSqs cfg envName jsonParse nowIsoKey nowIsoEnvelope guid compilerId body isCmake
          headers queryStringParameters queueUrl
        = .ok ⟨some (cfg.bucket, overflowKey cfg envName nowIsoKey guid,
            sqsMessageJson jsonParse guid compilerId body isCmake headers queryStringParameters,
            (sqsMessageJson jsonParse guid compilerId body isCmake headers
              queryStringParameters).utf8ByteSize),
          JVal.stringify (overflowEnvelope cfg envName nowIsoKey nowIsoEnvelope guid compilerId
            (sqsMessageJson jsonParse guid compilerId body isCmake headers
              queryStringParameters).utf8ByteSize),
          "default", guid⟩)
    ∧ ((sqsMessageJson jsonParse guid compilerId body isCmake headers
        queryStringParameters).utf8ByteSize ≤ cfg.maxMessageSize →
      sendToSqs cfg envName jsonParse nowIsoKey nowIsoEnvelope guid compilerId body isCmake
          headers queryStringParameters queueUrl
        = .ok ⟨none, sqsMessageJson jsonParse guid compilerId body isCmake headers
            queryStringParameters, "default", guid⟩)
    ∧ (∀ size : Nat,
        match overflowEnvelope cfg envName nowIsoKey nowIsoEnvelope guid compilerId size with
        | JVal.obj efs =>
          lookupKey efs "type" = some (JVal.str "s3-overflow")
          ∧ lookupKey efs "originalSize" = some (JVal.num (Int.ofNat size))
        | _ => False) := by
  have hq2 : (queueUrl == "") = false := by simpa using hq
  refine ⟨?_, ?_, ?_⟩
  · intro hbig
    simp [sendToSqs, hq2, hbig]
  · intro hsmall
    simp [sendToSqs, hq2, Nat.not_lt.mpr hsmall]
  · intro size
    simp [overflowEnvelope, lookupKey]

/-- Witness for C4: a small message with a large configured limit is
enqueued unchanged. -/
theorem C4_witness :
    sendToSqs ⟨500000, "temp-storage.godbolt.org", "sqs-overflow/"⟩ "prod" (fun _ => none)
        "t" "t" "g2" "c2" "" false [] [] "q"
      = .ok ⟨none, sqsMessageJson (fun _ => none) "g2" "c2" "" false [] [], "default", "g2"⟩ :=
  (C4_overflow_amended ⟨500000, "temp-storage.godbolt.org", "sqs-overflow/"⟩ "prod"
    (fun _ => none) "t" "t" "g2" "c2" "" false [] [] "q" (by decide)).2.1 (by decide)

/-- C5 counterexample: the claim says that on a routing-store error the
resolved fallback entry is cached under the composite key.  With a store
that throws on every read and an empty cache, the call returns the colored
fallback routing but the returned cache is still empty: nothing was cached
on the error path. -/
theorem C5_counterexample :
    lookupCompilerRouting ⟨some "prod", none, none, none, none⟩ "blue" (fun _ => DbRes.err)
        [] "gcc"
      = .ok (⟨RType.queue,
          "https://sqs.us-east-1.amazonaws.com/052730242331/prod-compilation-queue-blue.fifo",
          "unknown"⟩, [])
    ∧ lookupKey ([] : List (String × RoutingInfo)) "prod#gcc" = none := ⟨rfl, rfl⟩

/-- C5 amended: every failing lookup resolves to a queue routing whose
target is the default colored queue URL and whose environment is
`unknown`; when the entry is missing under both the composite and the
legacy key, that fallback entry is cached under the composite key, but
when the store lookup throws, the cache is left unchanged. -/
theorem C5_fallback_amended (cfg : RoutingCfg) (activeColor : String) (db : String → DbRes)
    (cache : List (String × RoutingInfo)) (compilerId : String)
    (hc : lookupKey cache (getEnvironmentName cfg ++ "#" ++ compilerId) = none) :
    (db (getEnvironmentName cfg ++ "#" ++ compilerId) = DbRes.err →
      lookupCompilerRouting cfg activeColor db cache compilerId
        = routingCatch cfg activeColor cache)
    ∧ (db (getEnvironmentName cfg ++ "#" ++ compilerId) = DbRes.found none →
       db compilerId = DbRes.err →
      lookupCompilerRouting cfg activeColor db cache compilerId
        = routingCatch cfg activeColor cache)
    ∧ (db (getEnvironmentName cfg ++ "#" ++ compilerId) = DbRes.found none →
       db compilerId = DbRes.found none →
      lookupCompilerRouting cfg activeColor db cache compilerId
        = routingNoEntry cfg activeColor cache (getEnvironmentName cfg ++ "#" ++ compilerId))
    ∧ (∀ url, getColoredQueueUrl cfg activeColor = .ok url →
        routingCatch cfg activeColor cache = .ok (⟨RType.queue, url, "unknown"⟩, cache)
        ∧ routingNoEntry cfg activeColor cache (getEnvironmentName cfg ++ "#" ++ compilerId)
            = .ok (⟨RType.queue, url, "unknown"⟩,
                setKey cache (getEnvironmentName cfg ++ "#" ++ compilerId)
                  ⟨RType.queue, url, "unknown"⟩)) := by
  refine ⟨?_, ?_, ?_, ?_⟩
  · intro hdb
    simp [lookupCompilerRouting, hc, hdb]
  · intro hdb1 hdb2
    simp [lookupCompilerRouting, hc, hdb1, hdb2]
  · intro hdb1 hdb2
    simp [lookupCompilerRouting, hc, hdb1, hdb2]
  · intro url hurl
    exact ⟨by simp [routingCatch, hurl], by simp [routingNoEntry, hurl]⟩

/-- Witness for C5: with a store erroring on every read, the beta
environment falls back to the colored queue without caching. -/
theorem C5_witness :
    lookupCompilerRouting ⟨some "beta", none, none, none, none⟩ "blue" (fun _ => DbRes.err)
        [] "clang"
      = routingCatch ⟨some "beta", none, none, none, none⟩ "blue" [] :=
  (C5_fallback_amended ⟨some "beta", none, none, none, none⟩ "blue" (fun _ => DbRes.err)
    [] "clang" rfl).1 rfl

end CeRouter
